import Mathlib

/-!
Verification of the `mlog` circular-log core (`src/src/lib.rs`) against its
natural-language specification.

The header manipulation performed by `Log::init` (lines 141-183) and its inner
`reformat` helper (lines 170-180) is embedded as pure functions on a
`LogHeader` record.  Machine integers are modelled as `Nat`; the fields are
only ever assigned values that fit their Rust widths, and where truncation
would matter it is written explicitly.
-/

namespace Mlog

/-- Magic sentinel, from `src/src/lib.rs` line 21: `LOG_MAGIC_V1 = 0x12aab766`. -/
def LOG_MAGIC_V1 : Nat := 0x12aab766

/-- The on-media log header, from `src/src/lib.rs` lines 65-92 (`struct LogHeader`):
fields `magic : u32`, `length : u32`, `epoch : u64`, `head : u16`,
`head_check : u16`, in declaration order.  There is no `tail` field in
`LogHeader` (`tail` lives on `Log`, line 48). -/
structure LogHeader where
  magic : Nat
  length : Nat
  epoch : Nat
  head : Nat
  head_check : Nat
  deriving DecidableEq

/-- The inner `reformat` function of `Log::init`, `src/src/lib.rs` lines 170-180.
The source performs, in order: `epoch = potential_epoch`, `length = store_len`,
`head = 0`, `tail = 0`, a `cache_flush()`, and finally `magic = LOG_MAGIC_V1`.
The statement `lh_m.tail = 0` targets a field that does not exist on
`LogHeader` (a compile error in the source); in particular no write to
`head_check` occurs anywhere in `reformat`, so `head_check` is left unchanged
here. -/
def reformat (lh : LogHeader) (potential_epoch store_len : Nat) : LogHeader :=
  { lh with
      epoch := potential_epoch
      length := store_len
      head := 0
      magic := LOG_MAGIC_V1 }

/-- The effect of `Log::init` (`src/src/lib.rs` lines 160-168) on the stored
header: reformat if `magic` mismatches the sentinel, then reformat if `length`
mismatches the actual region length. -/
def initHeaderEffect (lh : LogHeader) (potential_epoch store_len : Nat) : LogHeader :=
  let lh1 := if lh.magic ≠ LOG_MAGIC_V1 then reformat lh potential_epoch store_len else lh
  if lh1.length ≠ store_len then reformat lh1 potential_epoch store_len else lh1

/-- The individual steps of `reformat`, in source order (`src/src/lib.rs`
lines 170-180), used to reason about interruptions of the write sequence.
`writeTail` is the source's `lh_m.tail = 0` statement, which names no
`LogHeader` field and therefore has no effect on the header. -/
inductive RefmtEv where
  | writeEpoch
  | writeLength
  | writeHead
  | writeTail
  | flush
  | writeMagic
  deriving DecidableEq

/-- Semantics of one `reformat` step on the header. -/
def applyEv (potential_epoch store_len : Nat) : RefmtEv → LogHeader → LogHeader
  | RefmtEv.writeEpoch, lh => { lh with epoch := potential_epoch }
  | RefmtEv.writeLength, lh => { lh with length := store_len }
  | RefmtEv.writeHead, lh => { lh with head := 0 }
  | RefmtEv.writeTail, lh => lh
  | RefmtEv.flush, lh => lh
  | RefmtEv.writeMagic, lh => { lh with magic := LOG_MAGIC_V1 }

/-- The `reformat` write sequence in source order: epoch, length, head, the
(no-op) tail write, the flush barrier, and the magic write last. -/
def reformatEvents : List RefmtEv :=
  [RefmtEv.writeEpoch, RefmtEv.writeLength, RefmtEv.writeHead,
   RefmtEv.writeTail, RefmtEv.flush, RefmtEv.writeMagic]

/-- Run a sequence of `reformat` steps over a header. -/
def runEvents (potential_epoch store_len : Nat) (evs : List RefmtEv) (lh : LogHeader) :
    LogHeader :=
  evs.foldl (fun h e => applyEv potential_epoch store_len e h) lh

/-- Outcome of a call to `Log::init` (`src/src/lib.rs` lines 141-183).  Every
control path of the source ends in a panic: the `try_into().unwrap()` on the
region length (line 142), the `split_at_mut` bound (line 143), the alignment
asserts (lines 153-155), or the trailing `todo!()` (line 182); no path
constructs and returns a `Log` value. -/
inductive InitOutcome where
  | panicLenOverflow
  | panicSplit
  | panicAssert
  | panicTodo (h : LogHeader)
  deriving DecidableEq

/-- Largest value representable in `u32`. -/
def U32_MAX : Nat := 2 ^ 32 - 1

/-- `Log::init`, `src/src/lib.rs` lines 141-183, as a function from the region
length, the platform's `size_of::<LogHeader>()`, the alignment of the region
start, the stored header and the caller's `potential_epoch` to its outcome.
The checks occur in source order: `len().try_into().unwrap()` (line 142),
`split_at_mut(size_of::<LogHeader>())` (line 143), the `align_to_mut` asserts
(lines 153-155), then the magic/length validation (lines 160-168, via
`initHeaderEffect`), and finally the unconditional `todo!()` (line 182). -/
def initRun (regionLen hdrSize : Nat) (aligned : Bool) (lh : LogHeader)
    (potential_epoch : Nat) : InitOutcome :=
  if U32_MAX < regionLen then InitOutcome.panicLenOverflow
  else if regionLen < hdrSize then InitOutcome.panicSplit
  else if aligned = false then InitOutcome.panicAssert
  else InitOutcome.panicTodo (initHeaderEffect lh potential_epoch regionLen)

/-- `repr(C)` field layout: `alignUp n a` rounds `n` up to a multiple of the
alignment `a`. -/
def alignUp (n a : Nat) : Nat := (n + a - 1) / a * a

/-- The `(size, align)` list of `LogHeader`'s fields in declaration order
(`u32, u32, u64, u16, u16`), with the platform alignment of `u64` as a
parameter (8 on typical targets, 4 on some 32-bit ABIs). -/
def layoutFieldsLH (a64 : Nat) : List (Nat × Nat) :=
  [(4, 4), (4, 4), (8, a64), (2, 2), (2, 2)]

/-- `repr(C)` offset assignment: each field is placed at the current offset
rounded up to its alignment. -/
def offsetsFrom : Nat → List (Nat × Nat) → List Nat
  | _, [] => []
  | off, (sz, al) :: fs => alignUp off al :: offsetsFrom (alignUp off al + sz) fs

/-- End offset of the last field under `repr(C)` placement. -/
def endOffset : Nat → List (Nat × Nat) → Nat
  | off, [] => off
  | off, (sz, al) :: fs => endOffset (alignUp off al + sz) fs

/-- `repr(C)` struct alignment: maximum field alignment. -/
def structAlign (fs : List (Nat × Nat)) : Nat := fs.foldl (fun m p => max m p.2) 1

/-- `repr(C)` struct size: end offset rounded up to the struct alignment
(trailing padding included); this is what `mem::size_of::<LogHeader>()`
returns and what `Log::init` passes to `split_at_mut` (line 143). -/
def reprCSize (fs : List (Nat × Nat)) : Nat := alignUp (endOffset 0 fs) (structAlign fs)

/-- Field offsets of a `repr(C)` struct. -/
def reprCOffsets (fs : List (Nat × Nat)) : List Nat := offsetsFrom 0 fs

/-- A read cursor, from `src/src/lib.rs` lines 206-210 (`struct Cursor`):
`epoch : u64`, `index : u16`. -/
structure Cursor where
  epoch : Nat
  index : Nat
  deriving DecidableEq

/-- Modelled from the spec: the bodies of `Log::append` (absent from the
source entirely), `Log::cursor_from_end` and `Log::read_at` (both `todo!()`
stubs, `src/src/lib.rs` lines 194-201) are missing, so the in-memory log
state they act on is modelled from spec sections 3, 4.2-4.4: a current
`epoch`, the `head` write offset into the circular data region, and the data
region's bytes (indexed modulo the data-region length `dl`, which is carried
as an explicit parameter by the operations below). -/
structure MState where
  epoch : Nat
  head : Nat
  data : Nat → Nat

/-- Modelled from the spec: result taxonomy of a read (spec sections 4.4 and
7) — stale cursor, no data yet, corrupt frame, or an entry plus the advanced
cursor. -/
inductive ReadResult where
  | stale
  | nothing
  | corrupt
  | entry (payload : List Nat) (next : Cursor)
  deriving DecidableEq

/-- Write a list of bytes into the circular data region starting at byte
offset `pos`, wrapping modulo `dl`. -/
def wrMod (dl : Nat) : (Nat → Nat) → Nat → List Nat → (Nat → Nat)
  | d, _, [] => d
  | d, pos, b :: bs => wrMod dl (Function.update d (pos % dl) b) (pos + 1) bs

/-- Modelled from the spec: the self-describing entry frame (spec section
4.2, "entries must be framed with at least a length prefix"); modelled as a
two-byte big-endian length followed by the payload bytes. -/
def frameOf (e : List Nat) : List Nat := e.length / 256 :: e.length % 256 :: e

/-- Modelled from the spec: `Log::cursor_from_end` (stubbed `todo!()` at
`src/src/lib.rs` line 194): a cursor at `head` carrying the current epoch
(spec section 4.3). -/
def cursorFromEnd (s : MState) : Cursor := Cursor.mk s.epoch s.head

/-- Modelled from the spec: append (absent from the source): if the framed
entry does not fit in the data region the append fails without touching the
state; otherwise the frame is written at `head` (wrapping modulo `dl`),
`head` advances by the framed size modulo `dl`, and `epoch` increments
exactly when the write position wraps (spec sections 4.2 and 9). -/
def appendEntry (dl : Nat) (s : MState) (e : List Nat) : Option MState :=
  if dl < 2 + e.length then none
  else some (MState.mk
    (if dl ≤ s.head + (2 + e.length) then s.epoch + 1 else s.epoch)
    ((s.head + (2 + e.length)) % dl)
    (wrMod dl s.data s.head (frameOf e)))

/-- Distance from `index` forward to `head` around the circular data region. -/
def distTo (dl index head : Nat) : Nat := (head + dl - index) % dl

/-- Frame length stored at offset `i` of the data region (two-byte big-endian
prefix, read modulo `dl`). -/
def frameLen (dl : Nat) (s : MState) (i : Nat) : Nat :=
  s.data (i % dl) * 256 + s.data ((i + 1) % dl)

/-- Modelled from the spec: `Log::read_at` (stubbed `todo!()` at
`src/src/lib.rs` lines 199-201), following spec section 4.4: epoch mismatch
reports a stale cursor; a cursor equal to `head` reports no data; otherwise
the length prefix at the cursor is read, validated to fit within
`[index, head)` around the wrap, and the payload plus advanced cursor is
returned. -/
def readAt (dl : Nat) (s : MState) (c : Cursor) : ReadResult :=
  if c.epoch ≠ s.epoch then ReadResult.stale
  else if c.index = s.head then ReadResult.nothing
  else if 2 + frameLen dl s c.index ≤ distTo dl c.index s.head then
    ReadResult.entry
      ((List.range (frameLen dl s c.index)).map (fun k => s.data ((c.index + 2 + k) % dl)))
      (Cursor.mk c.epoch ((c.index + 2 + frameLen dl s c.index) % dl))
  else ReadResult.corrupt

/-- Modelled from the spec: the source declares `read_at` with return type
`Option<(Entry, Cursor)>` (`src/src/lib.rs` line 199).  The rich read result
is mapped into that declared type: the only value available for every
non-entry outcome is `None`. -/
def readAtOpt (dl : Nat) (s : MState) (c : Cursor) : Option (List Nat × Cursor) :=
  match readAt dl s c with
  | ReadResult.entry p c' => some (p, c')
  | _ => none

/-- When the magic sentinel does not match, `Log::init` reformats the header
(first branch of the validation, `src/src/lib.rs` lines 160-162), and the
second (length) check then passes on the freshly written `length`. -/
lemma initHeaderEffect_of_bad_magic (lh : LogHeader) (pe sl : Nat)
    (h : lh.magic ≠ LOG_MAGIC_V1) :
    initHeaderEffect lh pe sl = reformat lh pe sl := by
  simp [initHeaderEffect, h, reformat]

/-- Shifting an offset by `m` with `1 ≤ m < dl` changes its residue mod `dl`. -/
lemma mod_shift_ne (dl pos m : Nat) (h1 : 1 ≤ m) (h2 : m < dl) :
    (pos + m) % dl ≠ pos % dl := by
  intro h
  have hmod : m ≡ 0 [MOD dl] := by
    have : pos + m ≡ pos + 0 [MOD dl] := by
      simpa [Nat.ModEq] using h
    exact Nat.ModEq.add_left_cancel' pos this
  have : m % dl = 0 := by simpa [Nat.ModEq] using hmod
  rw [Nat.mod_eq_of_lt h2] at this
  omega

/-- A circular write leaves untouched every in-range position that none of
the written offsets reaches. -/
lemma wrMod_notin (dl : Nat) (d : Nat → Nat) (pos i : Nat) (bs : List Nat)
    (hi : ∀ j, j < bs.length → (pos + j) % dl ≠ i) :
    wrMod dl d pos bs i = d i := by
  induction bs generalizing d pos with
  | nil => rfl
  | cons b bs ih =>
    have h0 : pos % dl ≠ i := by simpa using hi 0 (by simp)
    have ihh : ∀ j, j < bs.length → (pos + 1 + j) % dl ≠ i := by
      intro j hj
      have := hi (j + 1) (by simpa using Nat.succ_lt_succ hj)
      rw [show pos + 1 + j = pos + (j + 1) by omega]
      exact this
    calc wrMod dl d pos (b :: bs) i
        = wrMod dl (Function.update d (pos % dl) b) (pos + 1) bs i := rfl
      _ = Function.update d (pos % dl) b i := ih _ _ ihh
      _ = d i := Function.update_noteq (Ne.symm h0) _ _

/-- Reading back the `k`-th byte of a circular write of at most `dl` bytes
returns the byte written. -/
lemma wrMod_get (dl : Nat) (d : Nat → Nat) (pos : Nat) (bs : List Nat) (k : Nat)
    (hk : k < bs.length) (hlen : bs.length ≤ dl) :
    wrMod dl d pos bs ((pos + k) % dl) = bs[k] := by
  induction bs generalizing d pos k with
  | nil => simp at hk
  | cons b bs ih =>
    cases k with
    | zero =>
      have hskip : wrMod dl (Function.update d (pos % dl) b) (pos + 1) bs ((pos + 0) % dl)
          = Function.update d (pos % dl) b ((pos + 0) % dl) := by
        apply wrMod_notin
        intro j hj
        rw [show pos + 1 + j = pos + (1 + j) by omega, Nat.add_zero]
        apply mod_shift_ne
        · omega
        · simp at hlen
          omega
      calc wrMod dl d pos (b :: bs) ((pos + 0) % dl)
          = wrMod dl (Function.update d (pos % dl) b) (pos + 1) bs ((pos + 0) % dl) := rfl
        _ = Function.update d (pos % dl) b ((pos + 0) % dl) := hskip
        _ = b := by rw [Nat.add_zero]; exact Function.update_same _ _ _
        _ = (b :: bs)[0] := rfl
    | succ k =>
      have hstep : wrMod dl d pos (b :: bs) ((pos + (k + 1)) % dl)
          = wrMod dl (Function.update d (pos % dl) b) (pos + 1) bs ((pos + 1 + k) % dl) := by
        rw [show pos + (k + 1) = pos + 1 + k by omega]
        rfl
      rw [hstep, ih _ _ _ (by simpa using hk) (by simp at hlen; omega)]
      rfl

/-- C1: the claim states that reformat leaves `head_check = !0`; in the
source, `reformat` (`src/src/lib.rs` lines 170-180) sets epoch, length and
head as claimed, but assigns `0` to a `tail` field that `LogHeader` does not
have and never writes `head_check`.  Concretely, reformatting a header whose
`head_check` is `5` yields `epoch = 1`, `length = 20`, `head = 0` — and
`head_check` still `5`, not `0xFFFF`. -/
theorem c1_reformat_skips_head_check :
    reformat (LogHeader.mk 0 0 0 0 5) 1 20 = LogHeader.mk LOG_MAGIC_V1 20 1 0 5 ∧
    (5 : Nat) ≠ 0xFFFF := by
  decide

/-- C2 (as stated, refuted): interrupting a reformat that was triggered by a
length mismatch (magic still valid) after the epoch, length and head writes
leaves a header whose magic equals the sentinel; a subsequent `init` does not
observe bad magic, does not reformat, and preserves a header whose
`head_check` is not the complement of its `head`. -/
theorem c2_interrupted_length_reformat_passes_validation :
    (runEvents 999 20 (List.take 3 reformatEvents)
        (LogHeader.mk LOG_MAGIC_V1 100 7 3 65532)).magic = LOG_MAGIC_V1 ∧
    initHeaderEffect (runEvents 999 20 (List.take 3 reformatEvents)
        (LogHeader.mk LOG_MAGIC_V1 100 7 3 65532)) 555 20
      = runEvents 999 20 (List.take 3 reformatEvents)
          (LogHeader.mk LOG_MAGIC_V1 100 7 3 65532) ∧
    (runEvents 999 20 (List.take 3 reformatEvents)
        (LogHeader.mk LOG_MAGIC_V1 100 7 3 65532)).head_check
      ≠ 0xFFFF - (runEvents 999 20 (List.take 3 reformatEvents)
          (LogHeader.mk LOG_MAGIC_V1 100 7 3 65532)).head := by
  decide

/-- C2 (amended): in `reformat`'s write sequence the flush barrier is the
next-to-last step and the magic write is last; and when the reformat was
triggered by bad magic, every interruption before the magic write (a prefix
of at most the first five steps) leaves the magic unchanged and invalid, so a
subsequent `init` reformats again. -/
theorem c2_bad_magic_reformat_idempotent (lh : LogHeader) (pe sl pe2 sl2 k : Nat)
    (hbad : lh.magic ≠ LOG_MAGIC_V1) (hk : k ≤ 5) :
    reformatEvents.drop 4 = [RefmtEv.flush, RefmtEv.writeMagic] ∧
    (runEvents pe sl (List.take k reformatEvents) lh).magic ≠ LOG_MAGIC_V1 ∧
    initHeaderEffect (runEvents pe sl (List.take k reformatEvents) lh) pe2 sl2
      = reformat (runEvents pe sl (List.take k reformatEvents) lh) pe2 sl2 := by
  have hmagic : (runEvents pe sl (List.take k reformatEvents) lh).magic = lh.magic := by
    interval_cases k <;> rfl
  refine ⟨rfl, ?_, ?_⟩
  · rw [hmagic]; exact hbad
  · exact initHeaderEffect_of_bad_magic _ _ _ (by rw [hmagic]; exact hbad)

/-- C2 witness: the amended theorem applied to a concrete zeroed header
(magic `0`), interrupted after three of the five pre-magic steps. -/
theorem c2_bad_magic_reformat_idempotent_witness :
    reformatEvents.drop 4 = [RefmtEv.flush, RefmtEv.writeMagic] ∧
    (runEvents 1 20 (List.take 3 reformatEvents) (LogHeader.mk 0 0 0 0 0)).magic
      ≠ LOG_MAGIC_V1 ∧
    initHeaderEffect (runEvents 1 20 (List.take 3 reformatEvents) (LogHeader.mk 0 0 0 0 0)) 2 20
      = reformat (runEvents 1 20 (List.take 3 reformatEvents) (LogHeader.mk 0 0 0 0 0)) 2 20 :=
  c2_bad_magic_reformat_idempotent (LogHeader.mk 0 0 0 0 0) 1 20 2 20 3
    (by decide) (by norm_num)

/-- C3: the claim states that `init` returns a `Log` handle whenever the
region is long enough and aligned; in the source every such call runs the
validation and then hits the unconditional `todo!()` at `src/src/lib.rs`
line 182, which panics instead of returning a handle. -/
theorem c3_init_always_panics_at_todo (regionLen hdrSize : Nat) (aligned : Bool)
    (lh : LogHeader) (pe : Nat) (h1 : regionLen ≤ U32_MAX) (h2 : hdrSize ≤ regionLen)
    (h3 : aligned = true) :
    initRun regionLen hdrSize aligned lh pe
      = InitOutcome.panicTodo (initHeaderEffect lh pe regionLen) := by
  simp [initRun, h3, Nat.not_lt.mpr h1, Nat.not_lt.mpr h2]

/-- C3 witness: a 64-byte aligned region (header size 24) with a zeroed
header still ends at the `todo!()` panic. -/
theorem c3_init_always_panics_at_todo_witness :
    initRun 64 24 true (LogHeader.mk 0 0 0 0 0) 5
      = InitOutcome.panicTodo (initHeaderEffect (LogHeader.mk 0 0 0 0 0) 5 64) :=
  c3_init_always_panics_at_todo 64 24 true (LogHeader.mk 0 0 0 0 0) 5
    (by norm_num [U32_MAX]) (by norm_num) rfl

/-- C4: the claim states that `init` reformats when `head_check ≠ !head`; in
the source the validation (`src/src/lib.rs` lines 160-168) checks only magic
and length, so a header with valid magic, matching length, `head = 3` and
`head_check = 7 ≠ 0xFFFC = !3` passes validation completely untouched. -/
theorem c4_head_check_not_validated :
    initHeaderEffect (LogHeader.mk LOG_MAGIC_V1 20 3 3 7) 999 20
      = LogHeader.mk LOG_MAGIC_V1 20 3 3 7 ∧
    (7 : Nat) ≠ 0xFFFF - 3 := by
  decide

/-- C5: the claim states that an epoch-mismatched (stale) cursor is
distinguishable from a caught-up cursor; the source declares `read_at` as
returning `Option<(Entry, Cursor)>` (`src/src/lib.rs` line 199), so both the
stale outcome and the no-data outcome can only be `None`: on a log at epoch
`1` with `head = 0`, the stale cursor `(epoch 0, index 0)` and the caught-up
cursor `(epoch 1, index 0)` produce the same value `none`. -/
theorem c5_stale_and_nodata_collapse_to_none :
    readAtOpt 8 (MState.mk 1 0 (fun _ => 0)) (Cursor.mk 0 0) = none ∧
    readAtOpt 8 (MState.mk 1 0 (fun _ => 0)) (Cursor.mk 1 0) = none ∧
    readAt 8 (MState.mk 1 0 (fun _ => 0)) (Cursor.mk 0 0) = ReadResult.stale ∧
    readAt 8 (MState.mk 1 0 (fun _ => 0)) (Cursor.mk 1 0) = ReadResult.nothing := by
  refine ⟨rfl, rfl, rfl, rfl⟩

/-- C6: when the stored magic equals the sentinel and the stored length
equals the actual region length, `init`'s validation leaves the header — in
particular its epoch, head and head_check — completely unchanged. -/
theorem c6_valid_header_preserved (lh : LogHeader) (pe sl : Nat)
    (hm : lh.magic = LOG_MAGIC_V1) (hl : lh.length = sl) :
    initHeaderEffect lh pe sl = lh := by
  simp [initHeaderEffect, hm, hl]

/-- C6 witness: a concrete valid header over a 20-byte region is preserved
verbatim. -/
theorem c6_valid_header_preserved_witness :
    initHeaderEffect (LogHeader.mk LOG_MAGIC_V1 20 7 3 65532) 999 20
      = LogHeader.mk LOG_MAGIC_V1 20 7 3 65532 :=
  c6_valid_header_preserved (LogHeader.mk LOG_MAGIC_V1 20 7 3 65532) 999 20 rfl rfl

/-- C7 (as stated, refuted): with the typical 8-byte alignment of `u64`
(which the source's "typical C alignment rules" comment targets), the
`repr(C)` size of `LogHeader` — which is what `init` splits the region at —
is 24 bytes (20 bytes of fields plus 4 bytes of trailing padding), not 20. -/
theorem c7_header_size_is_24_under_align8 :
    reprCSize (layoutFieldsLH 8) = 24 ∧ (24 : Nat) ≠ 20 := by
  decide

/-- C7 (amended): for either platform alignment of `u64` (4 or 8), the field
offsets are magic 0, length 4, epoch 8, head 16, head_check 18 as claimed,
but the struct size — the offset where the data region begins — is 24 when
`u64` is 8-byte aligned and 20 only when it is 4-byte aligned. -/
theorem c7_layout_offsets_and_size (a64 : Nat) (h : a64 = 4 ∨ a64 = 8) :
    reprCOffsets (layoutFieldsLH a64) = [0, 4, 8, 16, 18] ∧
    reprCSize (layoutFieldsLH a64) = (if a64 = 8 then 24 else 20) := by
  rcases h with h | h <;> subst h <;> decide

/-- C7 witness: the amended layout facts at the typical alignment 8. -/
theorem c7_layout_offsets_and_size_witness :
    reprCOffsets (layoutFieldsLH 8) = [0, 4, 8, 16, 18] ∧
    reprCSize (layoutFieldsLH 8) = (if (8 : Nat) = 8 then 24 else 20) :=
  c7_layout_offsets_and_size 8 (Or.inr rfl)

/-- C8: the claim (and the `epoch` field's own doc comment) states that the
low 32 bits of the epoch are zero at format time; the source's `reformat`
stores `potential_epoch` verbatim (`src/src/lib.rs` line 171), so formatting
with `potential_epoch = 1` stores an epoch whose low 32 bits are `1`. -/
theorem c8_epoch_low_bits_not_zeroed :
    (reformat (LogHeader.mk 0 0 0 0 0) 1 20).epoch % 2 ^ 32 = 1 ∧ (1 : Nat) ≠ 0 := by
  decide

/-- C9 (as stated, refuted): on a data region of 8 bytes with `head = 6`, a
from-end cursor followed by one append of the single-byte entry `[9]` does
not yield that entry: the 3-byte frame wraps the region, the epoch
increments, and the unmodified cursor is reported stale. -/
theorem c9_wrapping_append_stales_from_end_cursor :
    (appendEntry 8 (MState.mk 0 6 (fun _ => 0)) [9]).map
        (fun t => readAt 8 t (cursorFromEnd (MState.mk 0 6 (fun _ => 0))))
      = some ReadResult.stale ∧
    ReadResult.stale ≠ ReadResult.entry [9] (Cursor.mk 0 1) := by
  refine ⟨rfl, by decide⟩

/-- C10: `Log::init` converts the region length to `u32` with
`try_into().unwrap()` (`src/src/lib.rs` line 142) before splitting or
validating anything, so any region longer than `u32::MAX` bytes panics
regardless of alignment, header contents or epoch. -/
theorem c10_init_panics_on_oversized_region (regionLen hdrSize : Nat) (aligned : Bool)
    (lh : LogHeader) (pe : Nat) (h : U32_MAX < regionLen) :
    initRun regionLen hdrSize aligned lh pe = InitOutcome.panicLenOverflow := by
  simp [initRun, h]

/-- C10 witness: a region of exactly 2^32 bytes panics at the length
conversion. -/
theorem c10_init_panics_on_oversized_region_witness :
    initRun (2 ^ 32) 24 true (LogHeader.mk 0 0 0 0 0) 0 = InitOutcome.panicLenOverflow :=
  c10_init_panics_on_oversized_region (2 ^ 32) 24 true (LogHeader.mk 0 0 0 0 0) 0
    (by norm_num [U32_MAX])

/-- C9 (amended): for every log state and entry whose frame fits strictly
before the end of the data region (no wrap, hence no epoch increment), a
from-end cursor first reads nothing, and after exactly one append the same
unmodified cursor reads exactly the appended entry with the advanced cursor
at the new head. -/
theorem c9_from_end_cursor_reads_appended_entry (dl : Nat) (s : MState) (e : List Nat)
    (hfit : s.head + 2 + e.length < dl) :
    readAt dl s (cursorFromEnd s) = ReadResult.nothing ∧
    (appendEntry dl s e).map (fun t => readAt dl t (cursorFromEnd s))
      = some (ReadResult.entry e (Cursor.mk s.epoch (s.head + 2 + e.length))) := by
  constructor
  · simp [readAt, cursorFromEnd]
  · have hflen : ¬ dl < 2 + e.length := by omega
    have hnw : ¬ dl ≤ s.head + (2 + e.length) := by omega
    have hmod : (s.head + (2 + e.length)) % dl = s.head + (2 + e.length) :=
      Nat.mod_eq_of_lt (by omega)
    have hmod2 : (s.head + 2 + e.length) % dl = s.head + 2 + e.length :=
      Nat.mod_eq_of_lt hfit
    have happ : appendEntry dl s e
        = some (MState.mk s.epoch (s.head + (2 + e.length))
            (wrMod dl s.data s.head (frameOf e))) := by
      simp only [appendEntry]
      rw [if_neg hflen, if_neg hnw, hmod]
    set d' := wrMod dl s.data s.head (frameOf e) with hd'
    have h0 : d' (s.head % dl) = e.length / 256 := by
      have h := wrMod_get dl s.data s.head (frameOf e) 0 (by simp [frameOf])
        (by simp [frameOf]; omega)
      simpa [frameOf] using h
    have h1 : d' ((s.head + 1) % dl) = e.length % 256 := by
      have h := wrMod_get dl s.data s.head (frameOf e) 1 (by simp [frameOf])
        (by simp [frameOf]; omega)
      simpa [frameOf] using h
    have hFL : frameLen dl (MState.mk s.epoch (s.head + (2 + e.length)) d') s.head
        = e.length := by
      show d' (s.head % dl) * 256 + d' ((s.head + 1) % dl) = e.length
      rw [h0, h1]
      omega
    have hdist : distTo dl s.head (s.head + (2 + e.length)) = 2 + e.length := by
      unfold distTo
      rw [show s.head + (2 + e.length) + dl - s.head = 2 + e.length + dl by omega,
        Nat.add_mod_right, Nat.mod_eq_of_lt (by omega)]
    have hpayload : (List.range e.length).map (fun k => d' ((s.head + 2 + k) % dl)) = e := by
      apply List.ext_getElem
      · simp
      · intro i h1' h2'
        simp only [List.getElem_map, List.getElem_range]
        have hb : i + 2 < (frameOf e).length := by simp [frameOf]; omega
        have hg : d' ((s.head + (i + 2)) % dl) = (frameOf e)[i + 2] :=
          wrMod_get dl s.data s.head (frameOf e) (i + 2) hb (by simp [frameOf]; omega)
        have hfe : (frameOf e)[i + 2] = e[i] := rfl
        rw [show s.head + 2 + i = s.head + (i + 2) by omega, hg, hfe]
    have hcond : 2 + frameLen dl (MState.mk s.epoch (s.head + (2 + e.length)) d') s.head
        ≤ distTo dl s.head (s.head + (2 + e.length)) := by
      rw [hFL, hdist]
    have hread : readAt dl (MState.mk s.epoch (s.head + (2 + e.length)) d')
        (Cursor.mk s.epoch s.head)
        = ReadResult.entry e (Cursor.mk s.epoch (s.head + 2 + e.length)) := by
      unfold readAt
      rw [if_neg (by simp), if_neg (by show ¬ s.head = s.head + (2 + e.length); omega),
        if_pos hcond]
      simp only [hFL]
      simp only [hpayload, hmod2]
    show (appendEntry dl s e).map (fun t => readAt dl t (cursorFromEnd s))
      = some (ReadResult.entry e (Cursor.mk s.epoch (s.head + 2 + e.length)))
    rw [happ]
    show some (readAt dl (MState.mk s.epoch (s.head + (2 + e.length)) d')
        (cursorFromEnd s)) = _
    rw [show cursorFromEnd s = Cursor.mk s.epoch s.head from rfl, hread]

/-- C9 witness: on a 16-byte data region with an empty fresh log, the from-end
cursor first reads nothing, and after appending the entry `[9]` the same
cursor reads exactly `[9]`. -/
theorem c9_from_end_cursor_reads_appended_entry_witness :
    readAt 16 (MState.mk 0 0 (fun _ => 0)) (cursorFromEnd (MState.mk 0 0 (fun _ => 0)))
      = ReadResult.nothing ∧
    (appendEntry 16 (MState.mk 0 0 (fun _ => 0)) [9]).map
        (fun t => readAt 16 t (cursorFromEnd (MState.mk 0 0 (fun _ => 0))))
      = some (ReadResult.entry [9] (Cursor.mk 0 3)) :=
  c9_from_end_cursor_reads_appended_entry 16 (MState.mk 0 0 (fun _ => 0)) [9] (by decide)

end Mlog
